import Mathlib

/-!
Shallow embedding of the wallet-backend sources (TypeScript) that the claims
refer to: `src/lib/ValidateParameters.ts`, `src/lib/SubWallets.ts`,
`src/lib/ConventionalDaemon.ts` (which also carries `Types.ts`).

JavaScript numbers holding coin amounts and fees are modelled as exact
rationals (`Rat`); `Number.isInteger` becomes the test that the denominator
is one.  Block heights, timestamps and counters are `Nat`.  JavaScript
`Map`s are modelled as insertion-ordered association lists.  Functions that
can `throw` return `Except String`.

Code of the repository that is not under `src/` (the `SubWallet` class,
`Config.ts`, `WalletError.ts`, `JsonSerialization.ts`) is modelled from the
spec where a claim needs it; each such definition carries a doc comment
saying so.
-/

/-- Error codes from `WalletError.ts`.  The file itself is not part of the
source snapshot; the constructors are exactly the codes used by the sources
under `src/` (and the list in spec section 7). -/
inductive WalletErrorCode where
  | SUCCESS
  | ADDRESS_NOT_VALID
  | ADDRESS_IS_INTEGRATED
  | ADDRESS_NOT_IN_WALLET
  | NO_DESTINATIONS_GIVEN
  | AMOUNT_IS_ZERO
  | NEGATIVE_VALUE_GIVEN
  | NON_INTEGER_GIVEN
  | CONFLICTING_PAYMENT_IDS
  | FEE_TOO_SMALL
  | NOT_ENOUGH_BALANCE
  | WILL_OVERFLOW
  | MIXIN_TOO_SMALL
  | MIXIN_TOO_BIG
  | PAYMENT_ID_WRONG_LENGTH
  | PAYMENT_ID_INVALID
deriving DecidableEq, Repr

/-- The `WalletError` value class: an error code plus an optional custom
message (empty when the one-argument constructor is used in the source). -/
structure WalletError where
  errorCode : WalletErrorCode
  customMessage : String := ""
deriving DecidableEq, Repr

/-- Result of `CryptoUtils.decodeAddress` (external `CryptoOps` capability):
the fields of the parsed address that the validation code reads. -/
structure ParsedAddress where
  publicSpendKey : String
  paymentId : String
deriving DecidableEq, Repr

/-- `Number.isInteger` on an exact-rational model of a JS number. -/
def jsIsInteger (q : Rat) : Bool :=
  q.den == 1

/-- `validateAddresses` from `ValidateParameters.ts` (lines 22-39).
`decodeAddress` is the external crypto capability and is passed as a
function that either returns a parsed address or fails with a message (the
`try`/`catch` in the source turns the failure into `ADDRESS_NOT_VALID`).
The result is always a `WalletError` value: the function is total. -/
def validateAddresses (decode : String → Except String ParsedAddress) :
    List String → Bool → WalletError
  | [], _ => ⟨WalletErrorCode.SUCCESS, ""⟩
  | address :: rest, integratedAddressesAllowed =>
    match decode address with
    | Except.error err => ⟨WalletErrorCode.ADDRESS_NOT_VALID, err⟩
    | Except.ok parsed =>
      if parsed.paymentId.length != 0 && !integratedAddressesAllowed then
        ⟨WalletErrorCode.ADDRESS_IS_INTEGRATED, ""⟩
      else
        validateAddresses decode rest integratedAddressesAllowed

/-- `TransactionInput` from `Types.ts`: a received output we own. -/
structure TransactionInput where
  keyImage : String
  amount : Rat
  blockHeight : Nat
  transactionPublicKey : String
  transactionIndex : Nat
  globalOutputIndex : Nat
  key : String
  spendHeight : Nat
  unlockTime : Nat
  parentTransactionHash : String
deriving DecidableEq, Repr

/-- `UnconfirmedInput` from `Types.ts`: change from a locally issued send. -/
structure UnconfirmedInput where
  amount : Rat
  key : String
  parentTransactionHash : String
deriving DecidableEq, Repr

/-- `Transaction` from `Types.ts`.  The `transfers` JS `Map` (public spend
key to signed amount) is an insertion-ordered association list. -/
structure Transaction where
  transfers : List (String × Int)
  hash : String
  fee : Rat
  blockHeight : Nat
  timestamp : Nat
  paymentID : String
  unlockTime : Nat
  isCoinbaseTransaction : Bool
deriving DecidableEq, Repr

/-- One entry of the serialized `transfers` vector
(`JsonSerialization.ts` is not in the snapshot; shape from spec section 6:
`[{ "publicKey", "amount" }]`). -/
structure TransferJSON where
  publicKey : String
  amount : Int
deriving DecidableEq, Repr

/-- `TransactionJSON` shape (spec section 6 / `Transaction.toJSON`). -/
structure TransactionJSON where
  transfers : List TransferJSON
  hash : String
  fee : Rat
  blockHeight : Nat
  timestamp : Nat
  paymentID : String
  unlockTime : Nat
  isCoinbaseTransaction : Bool
deriving DecidableEq, Repr

/-- `transfersToVector`.  Modelled from the spec: `JsonSerialization.ts` is
not in the snapshot; the spec fixes the serialized shape of a transfers map
as a vector of `{ publicKey, amount }` records. -/
def transfersToVector (transfers : List (String × Int)) : List TransferJSON :=
  transfers.map (fun p => ⟨p.1, p.2⟩)

/-- `Transaction.toJSON` from `Types.ts` (lines 444-462). -/
def Transaction.toJSON (t : Transaction) : TransactionJSON :=
  { transfers := transfersToVector t.transfers
    hash := t.hash
    fee := t.fee
    blockHeight := t.blockHeight
    timestamp := t.timestamp
    paymentID := t.paymentID
    unlockTime := t.unlockTime
    isCoinbaseTransaction := t.isCoinbaseTransaction }

/-- `Transaction.fromJSON` from `Types.ts` (lines 361-383).  The source
`Object.assign` first copies every field of the JSON record and then
overrides `transfers` with a `Map` rebuilt from the vector; the override
list also writes a stray `isCoinbaseTransactions` (plural) property, but the
real `isCoinbaseTransaction` field still comes from the JSON record, which
is what this model keeps. -/
def Transaction.fromJSON (j : TransactionJSON) : Transaction :=
  { transfers := j.transfers.map (fun x => (x.publicKey, x.amount))
    hash := j.hash
    fee := j.fee
    blockHeight := j.blockHeight
    timestamp := j.timestamp
    paymentID := j.paymentID
    unlockTime := j.unlockTime
    isCoinbaseTransaction := j.isCoinbaseTransaction }

/-- `SubWallet`.  Modelled from the spec: `SubWallet.ts` is not in the
snapshot; fields per spec section 3 ("SubWallet"). -/
structure SubWallet where
  address : String
  publicSpendKey : String
  privateSpendKey : Option String
  scanHeight : Nat
  creationTimestamp : Nat
  inputs : List TransactionInput
  lockedInputs : List UnconfirmedInput
  keyImages : List String
deriving DecidableEq, Repr

/-- `config.unlockTimeAsBlockHeightThreshold` (spec section 6: 500,000,000).
`unlockTime` values below it are block heights, otherwise Unix seconds. -/
def unlockTimeAsBlockHeightThreshold : Nat := 500000000

/-- `isInputUnlocked`.  Modelled from the spec (section 4.C): the wall clock
`nowSeconds()` is passed explicitly as `now` to keep the model pure. -/
def isInputUnlocked (unlockTime now currentHeight : Nat) : Bool :=
  if unlockTime < unlockTimeAsBlockHeightThreshold then
    currentHeight ≥ unlockTime
  else
    now ≥ unlockTime

/-- `SubWallet.getBalance`.  Modelled from the spec (section 4.C): sum over
`inputs` with `spendHeight == 0`, partitioned into (unlocked, locked) by
`isInputUnlocked`; `now` is the explicit wall clock. -/
def SubWallet.getBalance (sw : SubWallet) (now currentHeight : Nat) : Rat × Rat :=
  sw.inputs.foldl
    (fun acc inp =>
      if inp.spendHeight = 0 then
        if isInputUnlocked inp.unlockTime now currentHeight then
          (acc.1 + inp.amount, acc.2)
        else
          (acc.1, acc.2 + inp.amount)
      else acc)
    (0, 0)

/-- `SubWallet.hasKeyImage`.  Modelled from the spec (section 4.C):
set-membership in `keyImages`. -/
def SubWallet.hasKeyImage (sw : SubWallet) (keyImage : String) : Bool :=
  sw.keyImages.contains keyImage

/-- `SubWallet.removeForkedTransactions`.  Modelled from the spec (section
4.C): drop every input with `blockHeight >= forkHeight`; reset inputs with
`spendHeight >= forkHeight` to `spendHeight = 0`. -/
def SubWallet.removeForkedTransactions (sw : SubWallet) (forkHeight : Nat) : SubWallet :=
  { sw with
    inputs :=
      (sw.inputs.filter (fun i => i.blockHeight < forkHeight)).map
        (fun i => if i.spendHeight ≥ forkHeight then { i with spendHeight := 0 } else i) }

/-- `SubWalletJSON`.  Modelled from the spec (section 6 JSON shape): the
per-subwallet record; `inputs`/`lockedInputs` entries are field-by-field
copies of the in-memory records, so they are kept as the same types. -/
structure SubWalletJSON where
  publicSpendKey : String
  address : String
  scanHeight : Nat
  creationTimestamp : Nat
  privateSpendKey : Option String
  inputs : List TransactionInput
  lockedInputs : List UnconfirmedInput
  keyImages : List String
deriving DecidableEq, Repr

/-- `SubWallet.toJSON`.  Modelled from the spec (section 6 JSON shape):
field-by-field copy. -/
def SubWallet.toJSON (sw : SubWallet) : SubWalletJSON :=
  { publicSpendKey := sw.publicSpendKey
    address := sw.address
    scanHeight := sw.scanHeight
    creationTimestamp := sw.creationTimestamp
    privateSpendKey := sw.privateSpendKey
    inputs := sw.inputs
    lockedInputs := sw.lockedInputs
    keyImages := sw.keyImages }

/-- `SubWallet.fromJSON`.  Modelled from the spec (section 6 JSON shape):
field-by-field copy. -/
def SubWallet.fromJSON (j : SubWalletJSON) : SubWallet :=
  { address := j.address
    publicSpendKey := j.publicSpendKey
    privateSpendKey := j.privateSpendKey
    scanHeight := j.scanHeight
    creationTimestamp := j.creationTimestamp
    inputs := j.inputs
    lockedInputs := j.lockedInputs
    keyImages := j.keyImages }

/-- One entry of the serialized `txPrivateKeys` vector (spec section 6:
`[{ "transactionHash", "txPrivateKey" }]`). -/
structure TxPrivateKeyJSON where
  transactionHash : String
  txPrivateKey : String
deriving DecidableEq, Repr

/-- `SubWalletsJSON` (spec section 6 / `SubWallets.toJSON`). -/
structure SubWalletsJSON where
  publicSpendKeys : List String
  subWallet : List SubWalletJSON
  transactions : List TransactionJSON
  lockedTransactions : List TransactionJSON
  privateViewKey : String
  isViewWallet : Bool
  txPrivateKeys : List TxPrivateKeyJSON
deriving DecidableEq, Repr

/-- `txPrivateKeysToVector`.  Modelled from the spec: `JsonSerialization.ts`
is not in the snapshot; the spec fixes the shape as a vector of
`{ transactionHash, txPrivateKey }` records. -/
def txPrivateKeysToVector (m : List (String × String)) : List TxPrivateKeyJSON :=
  m.map (fun p => ⟨p.1, p.2⟩)

/-- The `SubWallets` aggregate from `SubWallets.ts`.  The two JS `Map`s
(`subWallets`, `transactionPrivateKeys`) are insertion-ordered association
lists. -/
structure SubWallets where
  isViewWallet : Bool
  publicSpendKeys : List String
  subWallets : List (String × SubWallet)
  transactions : List Transaction
  lockedTransactions : List Transaction
  privateViewKey : String
  transactionPrivateKeys : List (String × String)
deriving DecidableEq, Repr

/-- `SubWallets.toJSON` from `SubWallets.ts` (lines 117-133). -/
def SubWallets.toJSON (s : SubWallets) : SubWalletsJSON :=
  { publicSpendKeys := s.publicSpendKeys
    subWallet := s.subWallets.map (fun p => p.2.toJSON)
    transactions := s.transactions.map Transaction.toJSON
    lockedTransactions := s.lockedTransactions.map Transaction.toJSON
    privateViewKey := s.privateViewKey
    isViewWallet := s.isViewWallet
    txPrivateKeys := txPrivateKeysToVector s.transactionPrivateKeys }

/-- `SubWallets.fromJSON` from `SubWallets.ts` (lines 22-44): the
`subWallets` map is keyed by each deserialized subwallet's own
`publicSpendKey`. -/
def SubWallets.fromJSON (j : SubWalletsJSON) : SubWallets :=
  { publicSpendKeys := j.publicSpendKeys
    subWallets := j.subWallet.map (fun x => (x.publicSpendKey, SubWallet.fromJSON x))
    transactions := j.transactions.map Transaction.fromJSON
    lockedTransactions := j.lockedTransactions.map Transaction.fromJSON
    privateViewKey := j.privateViewKey
    isViewWallet := j.isViewWallet
    transactionPrivateKeys := j.txPrivateKeys.map (fun x => (x.transactionHash, x.txPrivateKey)) }

/-- `SubWallets.addTransaction` from `SubWallets.ts` (lines 194-206):
first `_.remove` every locked transaction with the same hash, then throw if
a confirmed transaction with that hash exists, otherwise push. -/
def SubWallets.addTransaction (s : SubWallets) (transaction : Transaction) :
    Except String SubWallets :=
  let afterRemove :=
    { s with lockedTransactions :=
        s.lockedTransactions.filter (fun tx => tx.hash != transaction.hash) }
  if afterRemove.transactions.any (fun tx => tx.hash == transaction.hash) then
    Except.error ("Transaction " ++ transaction.hash ++ " was added to the wallet twice!")
  else
    Except.ok { afterRemove with transactions := afterRemove.transactions ++ [transaction] }

/-- `SubWallets.removeForkedTransactions` from `SubWallets.ts` (lines
262-270): `_.remove` confirmed transactions with `blockHeight >= forkHeight`
(so those with a smaller height are kept), and apply the per-subwallet input
reorg; `lockedTransactions` is not touched. -/
def SubWallets.removeForkedTransactions (s : SubWallets) (forkHeight : Nat) : SubWallets :=
  { s with
    transactions := s.transactions.filter (fun tx => tx.blockHeight < forkHeight)
    subWallets := s.subWallets.map (fun p => (p.1, p.2.removeForkedTransactions forkHeight)) }

/-- The scan loop of `SubWallets.getKeyImageOwner`: walk the subwallet map
in insertion order and return the first owner found. -/
def keyImageOwnerScan (keyImage : String) :
    List (String × SubWallet) → Bool × String
  | [] => (false, "")
  | (publicKey, subWallet) :: rest =>
    if subWallet.hasKeyImage keyImage then (true, publicKey)
    else keyImageOwnerScan keyImage rest

/-- `SubWallets.getKeyImageOwner` from `SubWallets.ts` (lines 290-302). -/
def SubWallets.getKeyImageOwner (s : SubWallets) (keyImage : String) : Bool × String :=
  if s.isViewWallet then (false, "")
  else keyImageOwnerScan keyImage s.subWallets

/-- The accumulation loop of `SubWallets.getBalance`: look each requested
public spend key up, throw on an unknown key, otherwise add the subwallet's
(unlocked, locked) pair to the accumulators. -/
def getBalanceScan (s : SubWallets) (now currentHeight : Nat) :
    List String → Rat → Rat → Except String (Rat × Rat)
  | [], unlockedBalance, lockedBalance => Except.ok (unlockedBalance, lockedBalance)
  | publicSpendKey :: rest, unlockedBalance, lockedBalance =>
    match s.subWallets.lookup publicSpendKey with
    | none => Except.error "Subwallet not found!"
    | some subWallet =>
      getBalanceScan s now currentHeight rest
        (unlockedBalance + (subWallet.getBalance now currentHeight).1)
        (lockedBalance + (subWallet.getBalance now currentHeight).2)

/-- `SubWallets.getBalance` from `SubWallets.ts` (lines 338-364).  `none`
for `subWalletsToTakeFrom` is the omitted JS argument, in which case all
public spend keys are used; `now` is the explicit wall clock threaded into
the spec-modelled per-subwallet balance. -/
def SubWallets.getBalance (s : SubWallets) (now currentHeight : Nat)
    (subWalletsToTakeFrom : Option (List String)) : Except String (Rat × Rat) :=
  getBalanceScan s now currentHeight (subWalletsToTakeFrom.getD s.publicSpendKeys) 0 0

/-- `Config`.  Modelled from the spec: `Config.ts` is not in the snapshot;
spec section 6 lists the recognized options.  Only the fields the embedded
functions read are kept. -/
structure Config where
  minimumFee : Rat
  blockTargetTime : Rat
deriving DecidableEq, Repr

/-- `validateAmount` from `ValidateParameters.ts` (lines 141-175).  Checks
in source order: fee below `config.minimumFee`; then the
`Number.isInteger(fee)` test (which errors when the fee IS an integer, as
written in the source); then the balance of the source subwallets (which
can throw on an unknown key, hence `Except`); then the total against the
available balance; then the total against `2 ** 64`. -/
def validateAmount (cfg : Config) (destinations : List (String × Rat)) (fee : Rat)
    (subWalletsToTakeFrom : List String) (subWallets : SubWallets)
    (now currentHeight : Nat) : Except String WalletError :=
  if fee < cfg.minimumFee then
    Except.ok ⟨WalletErrorCode.FEE_TOO_SMALL, ""⟩
  else if jsIsInteger fee then
    Except.ok ⟨WalletErrorCode.NON_INTEGER_GIVEN, ""⟩
  else
    match subWallets.getBalance now currentHeight (some subWalletsToTakeFrom) with
    | Except.error e => Except.error e
    | Except.ok (availableBalance, _lockedBalance) =>
      let totalAmount : Rat := (destinations.map Prod.snd).sum + fee
      if totalAmount > availableBalance then
        Except.ok ⟨WalletErrorCode.NOT_ENOUGH_BALANCE, ""⟩
      else if totalAmount ≥ 2 ^ 64 then
        Except.ok ⟨WalletErrorCode.WILL_OVERFLOW, ""⟩
      else
        Except.ok ⟨WalletErrorCode.SUCCESS, ""⟩

/-- The fields of a successful `daemon.info()` response that
`updateDaemonInfo` reads (`ConventionalDaemon.ts` / spec section 6). -/
structure DaemonInfo where
  height : Nat
  network_height : Nat
  incoming_connections_count : Nat
  outgoing_connections_count : Nat
  difficulty : Rat
deriving DecidableEq, Repr

/-- The mutable state of `ConventionalDaemon` that `updateDaemonInfo`
touches. -/
structure ConventionalDaemon where
  localDaemonBlockCount : Nat
  networkBlockCount : Nat
  peerCount : Nat
  lastKnownHashrate : Rat
deriving DecidableEq, Repr

/-- `ConventionalDaemon.getNetworkBlockCount` (lines 81-83). -/
def ConventionalDaemon.getNetworkBlockCount (d : ConventionalDaemon) : Nat :=
  d.networkBlockCount

/-- `ConventionalDaemon.updateDaemonInfo` (lines 103-124).  `info` is
`none` when `daemon.info()` threw (the `catch` just returns, leaving the
state unchanged); on success the network height is stored and then
decremented whenever it is non-zero. -/
def ConventionalDaemon.updateDaemonInfo (d : ConventionalDaemon)
    (info : Option DaemonInfo) (cfg : Config) : ConventionalDaemon :=
  match info with
  | none => d
  | some i =>
    let networkBlockCount := i.network_height
    { d with
      localDaemonBlockCount := i.height
      networkBlockCount := if networkBlockCount ≠ 0 then networkBlockCount - 1
                           else networkBlockCount
      peerCount := i.incoming_connections_count + i.outgoing_connections_count
      lastKnownHashrate := i.difficulty / cfg.blockTargetTime }

/-- The hash-uniqueness invariant on the aggregate (spec section 8,
invariant 1): confirmed transaction hashes are pairwise distinct and no
confirmed hash also appears among the locked transactions. -/
def txHashInvariant (s : SubWallets) : Prop :=
  (s.transactions.map Transaction.hash).Nodup ∧
  ∀ t ∈ s.transactions, ∀ u ∈ s.lockedTransactions, t.hash ≠ u.hash

instance (s : SubWallets) : Decidable (txHashInvariant s) := by
  unfold txHashInvariant
  infer_instance

instance {ε α : Type} [DecidableEq ε] [DecidableEq α] : DecidableEq (Except ε α)
  | Except.error a, Except.error b =>
    decidable_of_iff (a = b) ⟨fun h => h ▸ rfl, fun h => by cases h; rfl⟩
  | Except.error _, Except.ok _ => isFalse (fun h => by cases h)
  | Except.ok _, Except.error _ => isFalse (fun h => by cases h)
  | Except.ok a, Except.ok b =>
    decidable_of_iff (a = b) ⟨fun h => h ▸ rfl, fun h => by cases h; rfl⟩

/-- A concrete configuration for concrete evaluations (TurtleCoin's minimum
fee is 10 atomic units; the block target time is 30 seconds). -/
def cfg10 : Config := ⟨10, 30⟩

/-- A concrete received input worth 5 atomic units, unspent and unlocked. -/
def inp5 : TransactionInput :=
  { keyImage := "ki1", amount := 5, blockHeight := 2, transactionPublicKey := "tp"
    transactionIndex := 0, globalOutputIndex := 0, key := "k"
    spendHeight := 0, unlockTime := 0, parentTransactionHash := "aa" }

/-- A concrete received input worth 2^64 atomic units, unspent and
unlocked. -/
def bigInput : TransactionInput :=
  { keyImage := "ki9", amount := 18446744073709551616, blockHeight := 1
    transactionPublicKey := "tp", transactionIndex := 0, globalOutputIndex := 0
    key := "k", spendHeight := 0, unlockTime := 0, parentTransactionHash := "cc" }

/-- A concrete subwallet with public spend key `pk0` and a 5-unit input. -/
def sampleSub : SubWallet :=
  { address := "addr0", publicSpendKey := "pk0", privateSpendKey := some "sk"
    scanHeight := 0, creationTimestamp := 0, inputs := [inp5]
    lockedInputs := [], keyImages := ["ki1"] }

/-- A concrete subwallet with public spend key `pk0` holding 2^64 units. -/
def richSub : SubWallet :=
  { address := "addr0", publicSpendKey := "pk0", privateSpendKey := some "sk"
    scanHeight := 0, creationTimestamp := 0, inputs := [bigInput]
    lockedInputs := [], keyImages := ["ki9"] }

/-- A confirmed transaction with hash `aa`. -/
def txA : Transaction :=
  { transfers := [("pk0", 100)], hash := "aa", fee := 1, blockHeight := 3
    timestamp := 1000, paymentID := "", unlockTime := 0, isCoinbaseTransaction := false }

/-- A locked (sent, unconfirmed) transaction with hash `bb`. -/
def txB : Transaction :=
  { transfers := [("pk0", -40)], hash := "bb", fee := 1, blockHeight := 0
    timestamp := 0, paymentID := "", unlockTime := 0, isCoinbaseTransaction := false }

/-- The confirmed form of the `bb` transaction, as seen in a block. -/
def txNew : Transaction :=
  { transfers := [("pk0", -40)], hash := "bb", fee := 1, blockHeight := 9
    timestamp := 2000, paymentID := "", unlockTime := 0, isCoinbaseTransaction := false }

/-- A concrete wallet: one subwallet (`pk0`, 5 units available), one
confirmed transaction `aa`, one locked transaction `bb`. -/
def sampleWallet : SubWallets :=
  { isViewWallet := false, publicSpendKeys := ["pk0"]
    subWallets := [("pk0", sampleSub)]
    transactions := [txA], lockedTransactions := [txB]
    privateViewKey := "pv", transactionPrivateKeys := [("aa", "tk")] }

/-- The expected state of `sampleWallet` after `addTransaction txNew`: the
locked `bb` transaction is promoted and the confirmed list gains `txNew`. -/
def sampleWalletAfterAdd : SubWallets :=
  { sampleWallet with transactions := [txA, txNew], lockedTransactions := [] }

/-- A concrete wallet whose single subwallet holds 2^64 atomic units. -/
def richWallet : SubWallets :=
  { isViewWallet := false, publicSpendKeys := ["pk0"]
    subWallets := [("pk0", richSub)]
    transactions := [], lockedTransactions := []
    privateViewKey := "pv", transactionPrivateKeys := [] }

/-- A destination list whose single amount, together with a fee of 21/2,
sums to exactly 2^64 - 1. -/
def overflowDest : List (String × Rat) := [("dest", 36893488147419103209 / 2)]

/-- A concrete address decoder for witnesses: `good` decodes with no
payment ID, `intg` decodes with a payment ID, everything else fails. -/
def decodeSample : String → Except String ParsedAddress := fun a =>
  if a = "good" then Except.ok ⟨"pk", ""⟩
  else if a = "intg" then Except.ok ⟨"pk", "pid64"⟩
  else Except.error "The address given is not valid"

/-- The unlocked balance of the subwallet registered under `k` (0 if the key
is unknown); used to state the summation property of
`SubWallets.getBalance`. -/
def summedUnlocked (s : SubWallets) (now currentHeight : Nat) (keys : List String) : Rat :=
  (keys.map (fun k =>
    ((s.subWallets.lookup k).map (fun sw => (sw.getBalance now currentHeight).1)).getD 0)).sum

/-- The locked counterpart of `summedUnlocked`. -/
def summedLocked (s : SubWallets) (now currentHeight : Nat) (keys : List String) : Rat :=
  (keys.map (fun k =>
    ((s.subWallets.lookup k).map (fun sw => (sw.getBalance now currentHeight).2)).getD 0)).sum

/-- Claim C1: for every integer fee at least `config.minimumFee`,
`validateAmount` returns `NON_INTEGER_GIVEN` (the source tests
`Number.isInteger(fee)` and errors when it is true), and an integer fee
never gets past the two fee checks to the balance and overflow checks. -/
theorem claim_C1_integer_fee_rejected (cfg : Config) (destinations : List (String × Rat))
    (fee : Rat) (subs : List String) (s : SubWallets) (now currentHeight : Nat)
    (hint : jsIsInteger fee = true) :
    (cfg.minimumFee ≤ fee →
      validateAmount cfg destinations fee subs s now currentHeight =
        Except.ok ⟨WalletErrorCode.NON_INTEGER_GIVEN, ""⟩) ∧
    (validateAmount cfg destinations fee subs s now currentHeight =
        Except.ok ⟨WalletErrorCode.FEE_TOO_SMALL, ""⟩ ∨
      validateAmount cfg destinations fee subs s now currentHeight =
        Except.ok ⟨WalletErrorCode.NON_INTEGER_GIVEN, ""⟩) := by
  constructor
  · intro hmin
    unfold validateAmount
    rw [if_neg (not_lt.mpr hmin), if_pos hint]
  · by_cases hlt : fee < cfg.minimumFee
    · left
      unfold validateAmount
      rw [if_pos hlt]
    · right
      unfold validateAmount
      rw [if_neg hlt, if_pos hint]

/-- Witness for claim C1 at a concrete integer fee equal to the minimum. -/
theorem claim_C1_witness :
    validateAmount cfg10 [("addr", (7 : Rat))] 10 ["pk0"] sampleWallet 0 100 =
      Except.ok ⟨WalletErrorCode.NON_INTEGER_GIVEN, ""⟩ :=
  (claim_C1_integer_fee_rejected cfg10 [("addr", (7 : Rat))] 10 ["pk0"] sampleWallet 0 100
    (by decide)).1 (by decide)

/-- Counterexample to claim C2: a concrete call whose total amount
(destinations plus fee) is exactly 2^64 - 1 and whose available balance
covers it; `validateAmount` returns `SUCCESS`, not `WILL_OVERFLOW`, because
the overflow test in the source is `totalAmount >= 2 ** 64`. -/
theorem claim_C2_counterexample :
    ((overflowDest.map Prod.snd).sum + 21 / 2 = (2 : Rat) ^ 64 - 1) ∧
    validateAmount cfg10 overflowDest (21 / 2) ["pk0"] richWallet 0 100 =
      Except.ok ⟨WalletErrorCode.SUCCESS, ""⟩ := by
  constructor
  · simp [overflowDest]
    norm_num
  · have hbal : richWallet.getBalance 0 100 (some ["pk0"]) =
        Except.ok ((18446744073709551616 : Rat), 0) := by
      simp [SubWallets.getBalance, getBalanceScan, richWallet, richSub,
        SubWallet.getBalance, bigInput, isInputUnlocked, unlockTimeAsBlockHeightThreshold,
        List.lookup]
    unfold validateAmount
    rw [if_neg (by norm_num [cfg10]), if_neg (by norm_num [jsIsInteger]), hbal]
    simp only [overflowDest, List.map, List.sum_cons, List.sum_nil]
    norm_num

/-- Unfolding lemma for the `WILL_OVERFLOW` branch of `validateAmount`:
reaching it forces the total to be at least `2 ** 64` and not more than the
available unlocked balance. -/
lemma validateAmount_overflow_inv (cfg : Config) (dests : List (String × Rat)) (fee : Rat)
    (subs : List String) (s : SubWallets) (now currentHeight : Nat) (e : WalletError)
    (hok : validateAmount cfg dests fee subs s now currentHeight = Except.ok e)
    (hcode : e.errorCode = WalletErrorCode.WILL_OVERFLOW) :
    (2 : Rat) ^ 64 ≤ (dests.map Prod.snd).sum + fee ∧
    ∃ u l, s.getBalance now currentHeight (some subs) = Except.ok (u, l) ∧
      (dests.map Prod.snd).sum + fee ≤ u := by
  unfold validateAmount at hok
  split at hok
  · cases hok; simp at hcode
  · split at hok
    · cases hok; simp at hcode
    · cases hb : s.getBalance now currentHeight (some subs) with
      | error err => rw [hb] at hok; simp at hok
      | ok p =>
        obtain ⟨u, l⟩ := p
        rw [hb] at hok
        simp only [gt_iff_lt] at hok
        split at hok
        · cases hok; simp at hcode
        · split at hok
          · rename_i hgt hge
            cases hok
            exact ⟨hge, u, l, rfl, not_lt.mp hgt⟩
          · cases hok; simp at hcode

/-- Claim C2 as amended: a total amount of exactly 2^64 - 1 is never
rejected as `WILL_OVERFLOW`; the source rejects with `WILL_OVERFLOW` only
when the total is at least `2 ** 64` (and the total does not exceed the
available balance). -/
theorem claim_C2_total_just_below_overflow (cfg : Config)
    (destinations : List (String × Rat)) (fee : Rat) (subs : List String)
    (s : SubWallets) (now currentHeight : Nat)
    (htotal : (destinations.map Prod.snd).sum + fee = (2 : Rat) ^ 64 - 1) :
    Except.map WalletError.errorCode
        (validateAmount cfg destinations fee subs s now currentHeight) ≠
      Except.ok WalletErrorCode.WILL_OVERFLOW := by
  intro hcontra
  cases hv : validateAmount cfg destinations fee subs s now currentHeight with
  | error e => rw [hv] at hcontra; simp [Except.map] at hcontra
  | ok e =>
    rw [hv] at hcontra
    simp [Except.map] at hcontra
    have h := validateAmount_overflow_inv cfg destinations fee subs s now currentHeight
      e hv hcontra
    rw [htotal] at h
    have h1 := h.1
    norm_num at h1

/-- Witness for the amended claim C2 at the concrete near-overflow call. -/
theorem claim_C2_amended_witness :
    Except.map WalletError.errorCode
        (validateAmount cfg10 overflowDest (21 / 2) ["pk0"] richWallet 0 100) ≠
      Except.ok WalletErrorCode.WILL_OVERFLOW :=
  claim_C2_total_just_below_overflow cfg10 overflowDest (21 / 2) ["pk0"] richWallet 0 100
    (by simp [overflowDest]; norm_num)

/-- Claim C3: `addTransaction` removes locked transactions with the new
hash, fails exactly when the hash is already confirmed, otherwise appends;
on success the hash-uniqueness invariant is preserved. -/
theorem claim_C3_addTransaction (s : SubWallets) (tx : Transaction) :
    ((∃ e, s.addTransaction tx = Except.error e) ↔
      ∃ t ∈ s.transactions, t.hash = tx.hash) ∧
    ∀ s2, s.addTransaction tx = Except.ok s2 →
      s2.transactions = s.transactions ++ [tx] ∧
      s2.lockedTransactions = s.lockedTransactions.filter (fun t => t.hash != tx.hash) ∧
      (∀ t ∈ s.transactions, t.hash ≠ tx.hash) ∧
      (txHashInvariant s → txHashInvariant s2) := by
  unfold SubWallets.addTransaction
  by_cases hdup : ∃ t ∈ s.transactions, t.hash = tx.hash
  · have hany : s.transactions.any (fun t => t.hash == tx.hash) = true := by
      rw [List.any_eq_true]
      obtain ⟨t, ht, he⟩ := hdup
      exact ⟨t, ht, beq_iff_eq.mpr he⟩
    rw [if_pos hany]
    refine ⟨⟨fun _ => hdup, fun _ => ⟨_, rfl⟩⟩, ?_⟩
    intro s2 h2
    simp at h2
  · have hany : s.transactions.any (fun t => t.hash == tx.hash) = false := by
      rw [Bool.eq_false_iff]
      intro hc
      rw [List.any_eq_true] at hc
      obtain ⟨t, ht, he⟩ := hc
      exact hdup ⟨t, ht, beq_iff_eq.mp he⟩
    rw [if_neg (by rw [hany]; intro hc; cases hc)]
    constructor
    · constructor
      · rintro ⟨e, he⟩
        simp at he
      · intro hc
        exact absurd hc hdup
    · intro s2 h2
      have hs2 := (Except.ok.injEq _ _).mp h2
      subst hs2
      refine ⟨rfl, rfl, ?_, ?_⟩
      · intro t ht he
        exact hdup ⟨t, ht, he⟩
      · rintro ⟨hnodup, hcross⟩
        constructor
        · rw [List.map_append, List.nodup_append]
          refine ⟨hnodup, List.nodup_singleton _, ?_⟩
          intro a ha hb
          rw [List.map_singleton, List.mem_singleton] at hb
          subst hb
          rw [List.mem_map] at ha
          obtain ⟨t, ht, he⟩ := ha
          exact hdup ⟨t, ht, he⟩
        · intro t ht u hu
          rw [List.mem_filter] at hu
          rcases List.mem_append.mp ht with htl | htr
          · exact hcross t htl u hu.1
          · rw [List.mem_singleton] at htr
            subst htr
            have := hu.2
            rw [bne_iff_ne] at this
            exact fun he => this (he ▸ rfl)

/-- Witness for claim C3: adding the confirmed form of the locked `bb`
transaction to `sampleWallet` promotes it and keeps the invariant. -/
theorem claim_C3_witness :
    txHashInvariant sampleWalletAfterAdd ∧
    sampleWalletAfterAdd.transactions = sampleWallet.transactions ++ [txNew] := by
  have h := (claim_C3_addTransaction sampleWallet txNew).2 sampleWalletAfterAdd (by decide)
  exact ⟨h.2.2.2 (by decide), h.1⟩

/-- Claim C4: after `removeForkedTransactions h` no confirmed transaction
has `blockHeight >= h`, the confirmed transactions below the fork height
are kept unchanged (the list is exactly the filtered original), and the
locked transactions are exactly what they were. -/
theorem claim_C4_removeForked (s : SubWallets) (forkHeight : Nat) :
    (∀ t ∈ (s.removeForkedTransactions forkHeight).transactions,
      t.blockHeight < forkHeight) ∧
    (s.removeForkedTransactions forkHeight).transactions =
      s.transactions.filter (fun t => t.blockHeight < forkHeight) ∧
    (s.removeForkedTransactions forkHeight).lockedTransactions = s.lockedTransactions := by
  refine ⟨?_, rfl, rfl⟩
  intro t ht
  unfold SubWallets.removeForkedTransactions at ht
  simp only [List.mem_filter, decide_eq_true_eq] at ht
  exact ht.2

/-- Witness for claim C4 at `sampleWallet` and fork height 5. -/
theorem claim_C4_witness :
    txA.blockHeight < 5 ∧
    (sampleWallet.removeForkedTransactions 5).lockedTransactions =
      sampleWallet.lockedTransactions :=
  ⟨(claim_C4_removeForked sampleWallet 5).1 txA (by decide),
   (claim_C4_removeForked sampleWallet 5).2.2⟩

/-- Helper: `Transaction.fromJSON` inverts `Transaction.toJSON`. -/
lemma fromJSON_toJSON_tx (t : Transaction) : Transaction.fromJSON t.toJSON = t := by
  obtain ⟨tr, h, f, bh, ts, pid, ut, cb⟩ := t
  simp only [Transaction.fromJSON, Transaction.toJSON, transfersToVector, List.map_map,
    Transaction.mk.injEq]
  have hcg : ∀ p ∈ tr,
      ((fun x => (x.publicKey, x.amount)) ∘
        fun p => ({ publicKey := p.1, amount := p.2 } : TransferJSON)) p = id p :=
    fun p _ => rfl
  rw [List.map_congr_left hcg, List.map_id]
  exact ⟨rfl, trivial, trivial, trivial, trivial, trivial, trivial, trivial⟩

/-- Claim C5: serialization round-trips.  For a valid `SubWallets` state
(every entry of the subwallet map is keyed by the subwallet's own public
spend key, as the constructor and the mutators guarantee),
`fromJSON (toJSON W) = W`, and `Transaction.fromJSON` inverts
`Transaction.toJSON` on every transaction. -/
theorem claim_C5_serialization_roundTrip (W : SubWallets)
    (hkeys : ∀ p ∈ W.subWallets, (p : String × SubWallet).2.publicSpendKey = p.1) :
    SubWallets.fromJSON W.toJSON = W ∧
    ∀ t : Transaction, Transaction.fromJSON t.toJSON = t := by
  refine ⟨?_, fromJSON_toJSON_tx⟩
  obtain ⟨vw, pks, sws, txs, ltxs, pvk, tpks⟩ := W
  have hkeys2 : ∀ p ∈ sws, (p : String × SubWallet).2.publicSpendKey = p.1 := hkeys
  simp only [SubWallets.toJSON, SubWallets.fromJSON, txPrivateKeysToVector,
    List.map_map, SubWallets.mk.injEq]
  have hsw : ∀ p ∈ sws,
      ((fun x => (x.publicSpendKey, SubWallet.fromJSON x)) ∘
        fun p : String × SubWallet => p.2.toJSON) p = id p := by
    intro p hp
    show ((p.2.toJSON).publicSpendKey, SubWallet.fromJSON p.2.toJSON) = p
    rw [show (p.2.toJSON).publicSpendKey = p.2.publicSpendKey from rfl,
      show SubWallet.fromJSON p.2.toJSON = p.2 from rfl, hkeys2 p hp]
  have htx : ∀ t ∈ txs,
      (Transaction.fromJSON ∘ Transaction.toJSON) t = id t :=
    fun t _ => fromJSON_toJSON_tx t
  have hltx : ∀ t ∈ ltxs,
      (Transaction.fromJSON ∘ Transaction.toJSON) t = id t :=
    fun t _ => fromJSON_toJSON_tx t
  have htpk : ∀ p ∈ tpks,
      ((fun x => (x.transactionHash, x.txPrivateKey)) ∘
        fun p : String × String => ({ transactionHash := p.1, txPrivateKey := p.2 } :
          TxPrivateKeyJSON)) p = id p :=
    fun p _ => rfl
  rw [List.map_congr_left hsw, List.map_congr_left htx, List.map_congr_left hltx,
    List.map_congr_left htpk, List.map_id, List.map_id, List.map_id, List.map_id]
  exact ⟨trivial, trivial, rfl, rfl, rfl, trivial, rfl⟩

/-- Witness for claim C5 at the concrete `sampleWallet` and `txA`. -/
theorem claim_C5_witness :
    SubWallets.fromJSON sampleWallet.toJSON = sampleWallet ∧
    Transaction.fromJSON txA.toJSON = txA :=
  ⟨(claim_C5_serialization_roundTrip sampleWallet (by decide)).1,
   (claim_C5_serialization_roundTrip sampleWallet (by decide)).2 txA⟩

/-- Helper: what the subwallet scan of `getKeyImageOwner` returns. -/
lemma keyImageOwnerScan_spec (ki : String) (l : List (String × SubWallet)) :
    (keyImageOwnerScan ki l = (false, "") ↔
      ∀ p ∈ l, (p : String × SubWallet).2.hasKeyImage ki = false) ∧
    ((keyImageOwnerScan ki l).1 = false → keyImageOwnerScan ki l = (false, "")) ∧
    ((keyImageOwnerScan ki l).1 = true →
      ∃ sw, ((keyImageOwnerScan ki l).2, sw) ∈ l ∧ sw.hasKeyImage ki = true) := by
  induction l with
  | nil => simp [keyImageOwnerScan]
  | cons hd tl ih =>
    obtain ⟨pk, sw⟩ := hd
    by_cases hk : sw.hasKeyImage ki = true
    · simp only [keyImageOwnerScan, hk, if_pos]
      refine ⟨?_, ?_, ?_⟩
      · constructor
        · intro hc
          cases hc
        · intro hall
          have := hall (pk, sw) (List.mem_cons_self _ _)
          rw [hk] at this
          cases this
      · intro hc
        simp at hc
      · intro _
        exact ⟨sw, List.mem_cons_self _ _, hk⟩
    · rw [Bool.not_eq_true] at hk
      simp only [keyImageOwnerScan, hk]
      rw [if_neg (by simp)]
      refine ⟨?_, ih.2.1, ?_⟩
      · rw [ih.1]
        constructor
        · intro hall p hp
          rcases List.mem_cons.mp hp with heq | htl
          · subst heq
            exact hk
          · exact hall p htl
        · intro hall p hp
          exact hall p (List.mem_cons_of_mem _ hp)
      · intro htrue
        obtain ⟨sw2, hmem, hsw2⟩ := ih.2.2 htrue
        exact ⟨sw2, List.mem_cons_of_mem _ hmem, hsw2⟩

/-- Claim C6: `getKeyImageOwner` returns `(false, "")` on view wallets; on
non-view wallets it returns `(false, "")` exactly when no subwallet holds
the key image, any `false` result is the literal `(false, "")` pair, and a
`true` result carries the public spend key of a subwallet that holds the
key image. -/
theorem claim_C6_getKeyImageOwner (s : SubWallets) (ki : String) :
    (s.isViewWallet = true → s.getKeyImageOwner ki = (false, "")) ∧
    (s.isViewWallet = false →
      (s.getKeyImageOwner ki = (false, "") ↔
        ∀ p ∈ s.subWallets, (p : String × SubWallet).2.hasKeyImage ki = false) ∧
      ((s.getKeyImageOwner ki).1 = false → s.getKeyImageOwner ki = (false, "")) ∧
      ((s.getKeyImageOwner ki).1 = true →
        ∃ sw, ((s.getKeyImageOwner ki).2, sw) ∈ s.subWallets ∧
          sw.hasKeyImage ki = true)) := by
  constructor
  · intro hv
    unfold SubWallets.getKeyImageOwner
    rw [if_pos hv]
  · intro hv
    unfold SubWallets.getKeyImageOwner
    rw [if_neg (by rw [hv]; intro hc; cases hc)]
    exact keyImageOwnerScan_spec ki s.subWallets

/-- Witness for claim C6: `sampleWallet` does not own the key image
`nokey`, and the scan reports exactly that. -/
theorem claim_C6_witness :
    sampleWallet.getKeyImageOwner "nokey" = (false, "") :=
  ((claim_C6_getKeyImageOwner sampleWallet "nokey").2 (by decide)).1.mpr (by decide)

/-- Helper: behaviour of the balance accumulation loop. -/
lemma getBalanceScan_spec (s : SubWallets) (now ch : Nat) :
    ∀ (keys : List String) (u l : Rat),
    ((∃ e, getBalanceScan s now ch keys u l = Except.error e) ↔
      ∃ k ∈ keys, s.subWallets.lookup k = none) ∧
    ((∀ k ∈ keys, (s.subWallets.lookup k).isSome = true) →
      getBalanceScan s now ch keys u l =
        Except.ok (u + summedUnlocked s now ch keys, l + summedLocked s now ch keys)) := by
  intro keys
  induction keys with
  | nil =>
    intro u l
    constructor
    · constructor
      · rintro ⟨e, he⟩
        simp [getBalanceScan] at he
      · rintro ⟨k, hk, _⟩
        exact absurd hk (List.not_mem_nil k)
    · intro _
      simp [getBalanceScan, summedUnlocked, summedLocked]
  | cons k ks ih =>
    intro u l
    cases hl : s.subWallets.lookup k with
    | none =>
      refine ⟨⟨fun _ => ⟨k, List.mem_cons_self _ _, hl⟩,
          fun _ => ⟨"Subwallet not found!", by simp [getBalanceScan, hl]⟩⟩, ?_⟩
      intro hall
      have h := hall k (List.mem_cons_self _ _)
      rw [hl] at h
      simp at h
    | some sw =>
      have hstep : getBalanceScan s now ch (k :: ks) u l =
          getBalanceScan s now ch ks (u + (sw.getBalance now ch).1)
            (l + (sw.getBalance now ch).2) := by
        simp [getBalanceScan, hl]
      constructor
      · rw [hstep, (ih _ _).1]
        constructor
        · rintro ⟨k2, hk2, hl2⟩
          exact ⟨k2, List.mem_cons_of_mem _ hk2, hl2⟩
        · rintro ⟨k2, hk2, hl2⟩
          rcases List.mem_cons.mp hk2 with heq | htl
          · subst heq
            rw [hl] at hl2
            simp at hl2
          · exact ⟨k2, htl, hl2⟩
      · intro hall
        rw [hstep, (ih _ _).2 (fun k2 hk2 => hall k2 (List.mem_cons_of_mem _ hk2))]
        have hU : summedUnlocked s now ch (k :: ks) =
            (sw.getBalance now ch).1 + summedUnlocked s now ch ks := by
          simp [summedUnlocked, hl]
        have hL : summedLocked s now ch (k :: ks) =
            (sw.getBalance now ch).2 + summedLocked s now ch ks := by
          simp [summedLocked, hl]
        rw [hU, hL, add_assoc, add_assoc]

/-- Claim C7: `getBalance` over an explicit subset throws exactly when some
requested key is not a registered subwallet; otherwise it returns the
componentwise sum of the per-subwallet (unlocked, locked) balances over
the subset; with no subset given it sums over all public spend keys. -/
theorem claim_C7_getBalance (s : SubWallets) (now currentHeight : Nat) :
    (∀ keys : List String,
      ((∃ e, s.getBalance now currentHeight (some keys) = Except.error e) ↔
        ∃ k ∈ keys, s.subWallets.lookup k = none) ∧
      ((∀ k ∈ keys, (s.subWallets.lookup k).isSome = true) →
        s.getBalance now currentHeight (some keys) =
          Except.ok (summedUnlocked s now currentHeight keys,
            summedLocked s now currentHeight keys))) ∧
    s.getBalance now currentHeight none =
      s.getBalance now currentHeight (some s.publicSpendKeys) := by
  constructor
  · intro keys
    have h := getBalanceScan_spec s now currentHeight keys 0 0
    refine ⟨h.1, fun hall => ?_⟩
    rw [show s.getBalance now currentHeight (some keys) =
        getBalanceScan s now currentHeight keys 0 0 from rfl,
      h.2 hall, zero_add, zero_add]
  · rfl

/-- Witness for claim C7: the summation form at `sampleWallet` over its own
single key. -/
theorem claim_C7_witness :
    sampleWallet.getBalance 0 100 (some ["pk0"]) =
      Except.ok (summedUnlocked sampleWallet 0 100 ["pk0"],
        summedLocked sampleWallet 0 100 ["pk0"]) :=
  ((claim_C7_getBalance sampleWallet 0 100).1 ["pk0"]).2 (by decide)

/-- Claim C8: after a successful `info()` response with
`network_height = n`, `getNetworkBlockCount()` is `n - 1` when `n` is
non-zero and `0` when `n` is zero: the decrement is applied on every
non-zero height. -/
theorem claim_C8_networkHeight_decrement (d : ConventionalDaemon) (i : DaemonInfo)
    (cfg : Config) :
    (d.updateDaemonInfo (some i) cfg).getNetworkBlockCount =
      if i.network_height = 0 then 0 else i.network_height - 1 := by
  unfold ConventionalDaemon.updateDaemonInfo ConventionalDaemon.getNetworkBlockCount
  by_cases h : i.network_height = 0
  · simp [h]
  · simp [h]

/-- Claim C9: `validateAddresses` is total (it always returns one of the
three error values below, never throwing): `SUCCESS` exactly when every
address decodes and carries no payment ID unless integrated addresses are
allowed; `ADDRESS_NOT_VALID` only when some address fails to decode;
`ADDRESS_IS_INTEGRATED` only when integrated addresses are disallowed and
some address decodes with a payment ID. -/
theorem claim_C9_validateAddresses (decode : String → Except String ParsedAddress)
    (addresses : List String) (allowed : Bool) :
    ((validateAddresses decode addresses allowed).errorCode = WalletErrorCode.SUCCESS ∨
     (validateAddresses decode addresses allowed).errorCode =
        WalletErrorCode.ADDRESS_NOT_VALID ∨
     (validateAddresses decode addresses allowed).errorCode =
        WalletErrorCode.ADDRESS_IS_INTEGRATED) ∧
    ((validateAddresses decode addresses allowed).errorCode = WalletErrorCode.SUCCESS ↔
      ∀ a ∈ addresses, ∃ p, decode a = Except.ok p ∧
        (p.paymentId.length = 0 ∨ allowed = true)) ∧
    ((validateAddresses decode addresses allowed).errorCode =
        WalletErrorCode.ADDRESS_NOT_VALID →
      ∃ a ∈ addresses, ∃ e, decode a = Except.error e) ∧
    ((validateAddresses decode addresses allowed).errorCode =
        WalletErrorCode.ADDRESS_IS_INTEGRATED →
      allowed = false ∧ ∃ a ∈ addresses, ∃ p, decode a = Except.ok p ∧
        p.paymentId.length ≠ 0) := by
  induction addresses with
  | nil => simp [validateAddresses]
  | cons a rest ih =>
    cases hd : decode a with
    | error err =>
      have hv : validateAddresses decode (a :: rest) allowed =
          ⟨WalletErrorCode.ADDRESS_NOT_VALID, err⟩ := by
        simp [validateAddresses, hd]
      rw [hv]
      refine ⟨Or.inr (Or.inl rfl), ?_, ?_, ?_⟩
      · simp only [iff_false_intro]
        constructor
        · intro hc
          cases hc
        · intro hall
          obtain ⟨p, hp, _⟩ := hall a (List.mem_cons_self _ _)
          rw [hd] at hp
          cases hp
      · intro _
        exact ⟨a, List.mem_cons_self _ _, err, hd⟩
      · intro hc
        cases hc
    | ok parsed =>
      by_cases hint : parsed.paymentId.length != 0 && !allowed
      · have hv : validateAddresses decode (a :: rest) allowed =
            ⟨WalletErrorCode.ADDRESS_IS_INTEGRATED, ""⟩ := by
          simp only [validateAddresses, hd]
          rw [if_pos hint]
        rw [hv]
        rw [Bool.and_eq_true, bne_iff_ne, Bool.not_eq_true'] at hint
        obtain ⟨hlen, hal⟩ := hint
        refine ⟨Or.inr (Or.inr rfl), ?_, ?_, ?_⟩
        · constructor
          · intro hc
            cases hc
          · intro hall
            obtain ⟨p, hp, hc⟩ := hall a (List.mem_cons_self _ _)
            rw [hd] at hp
            cases hp
            rcases hc with hc | hc
            · exact absurd hc hlen
            · rw [hal] at hc
              cases hc
        · intro hc
          cases hc
        · intro _
          exact ⟨hal, a, List.mem_cons_self _ _, parsed, hd, hlen⟩
      · have hv : validateAddresses decode (a :: rest) allowed =
            validateAddresses decode rest allowed := by
          simp only [validateAddresses, hd]
          rw [if_neg hint]
        rw [hv]
        have hok : ∃ p, decode a = Except.ok p ∧
            (p.paymentId.length = 0 ∨ allowed = true) := by
          refine ⟨parsed, hd, ?_⟩
          by_cases hlen : parsed.paymentId.length = 0
          · exact Or.inl hlen
          · right
            cases hab : allowed
            · exfalso
              apply hint
              rw [hab]
              simp only [Bool.not_false, Bool.and_true, bne_iff_ne]
              exact hlen
            · rfl
        refine ⟨ih.1, ?_, ?_, ?_⟩
        · rw [ih.2.1]
          constructor
          · intro hall p hp
            rcases List.mem_cons.mp hp with heq | htl
            · subst heq
              exact hok
            · exact hall p htl
          · intro hall p hp
            exact hall p (List.mem_cons_of_mem _ hp)
        · intro hc
          obtain ⟨a2, ha2, e2, he2⟩ := ih.2.2.1 hc
          exact ⟨a2, List.mem_cons_of_mem _ ha2, e2, he2⟩
        · intro hc
          obtain ⟨hal, a2, ha2, p2, hp2, hl2⟩ := ih.2.2.2 hc
          exact ⟨hal, a2, List.mem_cons_of_mem _ ha2, p2, hp2, hl2⟩

/-- Witness for claim C9: with integrated addresses allowed, both concrete
addresses pass and the result is `SUCCESS`. -/
theorem claim_C9_witness :
    (validateAddresses decodeSample ["good", "intg"] true).errorCode =
      WalletErrorCode.SUCCESS :=
  (claim_C9_validateAddresses decodeSample ["good", "intg"] true).2.1.mpr
    (by
      intro a ha
      rcases List.mem_cons.mp ha with h | h
      · subst h
        exact ⟨⟨"pk", ""⟩, rfl, Or.inr rfl⟩
      · rcases List.mem_cons.mp h with h2 | h2
        · subst h2
          exact ⟨⟨"pk", "pid64"⟩, rfl, Or.inr rfl⟩
        · exact absurd h2 (List.not_mem_nil a))

/-- Claim C10: once the fee checks pass, the insufficient-balance check
precedes the overflow check: a total above the available unlocked balance
yields `NOT_ENOUGH_BALANCE` (whatever its size), and `WILL_OVERFLOW` is
only reachable when the total does not exceed the available balance. -/
theorem claim_C10_balance_before_overflow (cfg : Config)
    (dests : List (String × Rat)) (fee : Rat) (subs : List String)
    (s : SubWallets) (now currentHeight : Nat) (u l : Rat)
    (hmin : ¬ fee < cfg.minimumFee) (hint : jsIsInteger fee = false)
    (hbal : s.getBalance now currentHeight (some subs) = Except.ok (u, l)) :
    (u < (dests.map Prod.snd).sum + fee →
      validateAmount cfg dests fee subs s now currentHeight =
        Except.ok ⟨WalletErrorCode.NOT_ENOUGH_BALANCE, ""⟩) ∧
    (Except.map WalletError.errorCode
        (validateAmount cfg dests fee subs s now currentHeight) =
        Except.ok WalletErrorCode.WILL_OVERFLOW →
      (dests.map Prod.snd).sum + fee ≤ u) := by
  constructor
  · intro hgt
    unfold validateAmount
    rw [if_neg hmin, if_neg (by rw [hint]; intro hc; cases hc), hbal]
    simp only [gt_iff_lt]
    rw [if_pos hgt]
  · intro hc
    cases hv : validateAmount cfg dests fee subs s now currentHeight with
    | error e =>
      rw [hv] at hc
      simp [Except.map] at hc
    | ok e =>
      rw [hv] at hc
      simp [Except.map] at hc
      obtain ⟨_, u2, l2, hb2, hle⟩ :=
        validateAmount_overflow_inv cfg dests fee subs s now currentHeight e hv hc
      rw [hbal] at hb2
      simp only [Except.ok.injEq, Prod.mk.injEq] at hb2
      obtain ⟨h4, h5⟩ := hb2
      subst h4
      exact hle

/-- Witness for claim C10: `sampleWallet` holds 5 units, the concrete send
asks for 110.5, and the result is `NOT_ENOUGH_BALANCE`. -/
theorem claim_C10_witness :
    validateAmount cfg10 [("dest", (100 : Rat))] (21 / 2) ["pk0"] sampleWallet 0 100 =
      Except.ok ⟨WalletErrorCode.NOT_ENOUGH_BALANCE, ""⟩ :=
  (claim_C10_balance_before_overflow cfg10 [("dest", (100 : Rat))] (21 / 2) ["pk0"]
    sampleWallet 0 100 5 0
    (by norm_num [cfg10])
    (by norm_num [jsIsInteger, beq_eq_false_iff_ne])
    (by
      simp [SubWallets.getBalance, getBalanceScan, sampleWallet, sampleSub,
        SubWallet.getBalance, inp5, isInputUnlocked, unlockTimeAsBlockHeightThreshold,
        List.lookup])).1
    (by
      simp only [List.map, List.sum_cons, List.sum_nil]
      norm_num)
